import Mathlib

/-!
# Verification of the design-tree simplification and asset-resolution pipeline

A shallow embedding, in Lean 4, of the image-processing core of the
`osmo-figma-mcp` repository:

* `src/utils/image-processing.ts` — crop geometry (`applyCropTransformToBuffer`,
  `getBufferDimensions`), the image reference collector
  (`collectImageReferences`, `collectSvgNodesRecursive`) and the URL injector
  (`injectImageUrls`, `injectSvgUrlsRecursive`);
* `src/utils/fetch-with-retry.ts` — the resilient fetch layer (`fetchWithRetry`);
* `src/services/figma.ts` — the asset resolution pipeline
  (`processDesignImages`);
* `src/utils/s3-upload.ts` — the storage configuration loader
  (`getS3ConfigFromEnv`).

JavaScript numbers appearing in the crop geometry are modelled as `Rat`
(the values involved are finite and far from the limits of doubles);
`Math.round` is modelled as `Int.floor (q + 1/2)`, which is exactly
JavaScript's round-half-up semantics.  JavaScript truthiness tests on strings
(`if (imageUrl)`, `?.filenameSuffix ? _ : _`) are modelled as
"present and non-empty"; truthiness tests on numbers (`result.status &&`)
as "present and non-zero".  JS `Map`s (insertion ordered) are modelled as
association lists; `Map.get`/`Map.has`/`Map.set` as `mapGet`/`mapHas`/`mapSet`.
Effectful external operations (HTTP transport, `curl`, `sharp`, storage
uploads) are modelled as explicit environments supplying each call's outcome,
and exceptions as `Except` / `Option` results.
-/

/-- JavaScript `Math.round`: round half toward positive infinity. -/
def jsRound (q : Rat) : Int := Int.floor (q + 1/2)

/-- JS string truthiness of an optional string: defined and non-empty. -/
def strTruthy : Option String → Bool
  | none => false
  | some s => !(s == "")

/-! ## Association-list model of JS `Map` (insertion ordered) -/

/-- `Map.get`: the value bound to the first (and only) occurrence of `k`. -/
def mapGet (m : List (String × α)) (k : String) : Option α :=
  (m.find? (fun p => p.1 == k)).map Prod.snd

/-- `Map.has`. -/
def mapHas (m : List (String × α)) (k : String) : Bool :=
  (mapGet m k).isSome

/-- `Map.set`: overwrite in place when the key exists, append otherwise. -/
def mapSet (m : List (String × α)) (k : String) (v : α) : List (String × α) :=
  if mapHas m k then m.map (fun p => if p.1 == k then (k, v) else p)
  else m ++ [(k, v)]

/-! ## Geometry module (`applyCropTransformToBuffer`, image-processing.ts) -/

/-- Pixel crop rectangle, as computed in `applyCropTransformToBuffer`. -/
structure CropRegion where
  left : Int
  top : Int
  width : Int
  height : Int
deriving DecidableEq, Repr

/-- The crop-region computation of `applyCropTransformToBuffer`
(image-processing.ts lines 17–44): extract `scaleX`, `translateX`, `scaleY`,
`translateY` from the 2×3 transform (with `?? 1` / `?? 0` defaults), compute
`left/top/width/height` with `Math.max`, `Math.min` and `Math.round`, and
report `none` when either resulting dimension is `<= 0` (the code then
returns the original buffer with no crop region). -/
def computeCropRegion (width height : Nat) (t : List (List Rat)) : Option CropRegion :=
  let scaleX := (((t.get? 0).bind (fun r => r.get? 0)).getD 1)
  let translateX := (((t.get? 0).bind (fun r => r.get? 2)).getD 0)
  let scaleY := (((t.get? 1).bind (fun r => r.get? 1)).getD 1)
  let translateY := (((t.get? 1).bind (fun r => r.get? 2)).getD 0)
  let cropLeft := max 0 (jsRound (translateX * width))
  let cropTop := max 0 (jsRound (translateY * height))
  let cropWidth := min ((width : Int) - cropLeft) (jsRound (scaleX * width))
  let cropHeight := min ((height : Int) - cropTop) (jsRound (scaleY * height))
  if cropWidth ≤ 0 ∨ cropHeight ≤ 0 then none
  else some { left := cropLeft, top := cropTop, width := cropWidth, height := cropHeight }

/-- An in-memory image buffer.  `sharp`'s metadata read is modelled by the
`meta` field of a source buffer: `none` models a failing metadata read (an
invalid or truncated image).  `extracted` is the opaque result of
`sharp(buffer).extract(region).toBuffer()`. -/
inductive Buffer : Type where
  | source (meta : Option (Nat × Nat)) (tag : String)
  | extracted (parent : Buffer) (region : CropRegion)
deriving DecidableEq, Repr

/-- The metadata `sharp` reports for a buffer (width, height); `none` when the
read fails.  An extracted buffer has the extracted region's dimensions. -/
def bufferMeta : Buffer → Option (Nat × Nat)
  | .source m _ => m
  | .extracted _ r => some (r.width.toNat, r.height.toNat)

/-- Result shape of `applyCropTransformToBuffer`:
`{ buffer: Buffer; cropRegion?: CropRegion }`. -/
structure CropResult where
  buffer : Buffer
  cropRegion : Option CropRegion
deriving DecidableEq, Repr

/-- `applyCropTransformToBuffer` (image-processing.ts lines 11–64).  Any
throw inside the `try` — a failing metadata read, falsy `metadata.width` or
`metadata.height` — is caught and the original buffer is returned with no
crop region; a degenerate computed region (`cropWidth <= 0 || cropHeight <= 0`)
likewise returns the original buffer.  Otherwise the extracted buffer and the
region are returned. -/
def applyCropTransformToBuffer (b : Buffer) (t : List (List Rat)) : CropResult :=
  match bufferMeta b with
  | none => { buffer := b, cropRegion := none }
  | some (w, h) =>
    if w = 0 ∨ h = 0 then { buffer := b, cropRegion := none }
    else
      match computeCropRegion w h t with
      | none => { buffer := b, cropRegion := none }
      | some r => { buffer := Buffer.extracted b r, cropRegion := some r }

/-- `getBufferDimensions` (image-processing.ts lines 71–91): read the metadata;
on a failing read or falsy width/height, fall back to the placeholder
`{ width: 1000, height: 1000 }`. -/
def getBufferDimensions (b : Buffer) : Nat × Nat :=
  match bufferMeta b with
  | none => (1000, 1000)
  | some (w, h) => if w = 0 ∨ h = 0 then (1000, 1000) else (w, h)

/-! ## Simplified design model (extractors/types.ts, transformers/style.ts)

`SimplifiedNode` is modelled with the fields the image pipeline reads or
writes (`id`, `type`, `imageUrl`, `children`); the image-fill variant of
`SimplifiedFill` is modelled from its use in `image-processing.ts`
(`type === "IMAGE"`, `imageRef`, `imageDownloadArguments`, and the injected
`imageUrl`); non-image fills are opaque. -/

/-- `imageDownloadArguments` of an image fill. -/
structure ImageDownloadArguments where
  needsCropping : Option Bool
  cropTransform : Option (List (List Rat))
  requiresImageDimensions : Option Bool
  filenameSuffix : Option String
deriving DecidableEq, Repr

/-- An image fill (`type: "IMAGE"`).  `imageRef` and
`imageDownloadArguments` are deletable (hence `Option`); `imageUrl` is added
by the injector. -/
structure SimplifiedImageFill where
  imageRef : Option String
  imageDownloadArguments : Option ImageDownloadArguments
  imageUrl : Option String
deriving DecidableEq, Repr

/-- A `SimplifiedFill`: an image fill, or any other fill (opaque). -/
inductive SimplifiedFill where
  | image (f : SimplifiedImageFill)
  | other (tag : String)
deriving DecidableEq, Repr

/-- A `globalVars.styles` entry value: a fill array (`Array.isArray` true)
or any other style payload (opaque). -/
inductive StyleValue where
  | fills (l : List SimplifiedFill)
  | other (tag : String)
deriving DecidableEq, Repr

/-- A `SimplifiedNode`, restricted to the fields the image pipeline touches.
`children` is optional exactly as in the interface (`children?:`). -/
inductive SNode : Type where
  | mk (id : String) (type : String) (imageUrl : Option String)
      (children : Option (List SNode))

/-- A `SimplifiedDesign`, restricted to the fields the image pipeline
touches: the node forest and the style registry (`globalVars.styles`
entries, in insertion order as `Object.entries` yields them). -/
structure SimplifiedDesign where
  nodes : List SNode
  styles : List (String × StyleValue)

/-! ## Image Reference Collector (`collectImageReferences`) -/

/-- `ImageFillInfo` (image-collector work item). -/
structure ImageFillInfo where
  imageRef : String
  needsCropping : Bool
  cropTransform : Option (List (List Rat))
  requiresImageDimensions : Bool
  filenameSuffix : Option String
deriving DecidableEq, Repr

/-- `ImageCollectionResult`. -/
structure ImageCollectionResult where
  imageFills : List (String × ImageFillInfo)
  svgNodeIds : List String

/-- The unique key of an image fill: `imageRef + "-" + filenameSuffix` when a
truthy suffix is present, else `imageRef`
(`fill.imageDownloadArguments?.filenameSuffix ? ... : ...`). -/
def fillUniqueKey (imageRef : String) (args : Option ImageDownloadArguments) : String :=
  match args.bind (fun a => a.filenameSuffix) with
  | some s => if s = "" then imageRef else imageRef ++ "-" ++ s
  | none => imageRef

/-- One step of the fill-collection loop (image-processing.ts lines 220–236):
for an image fill with truthy `imageRef`, compute the unique key and insert a
work item only if the key is new. -/
def insertImageFill (m : List (String × ImageFillInfo)) : SimplifiedFill →
    List (String × ImageFillInfo)
  | .image f =>
    match f.imageRef with
    | some r =>
      if r = "" then m
      else
        let key := fillUniqueKey r f.imageDownloadArguments
        if mapHas m key then m
        else m ++ [(key,
          { imageRef := r,
            needsCropping := ((f.imageDownloadArguments.bind
              (fun a => a.needsCropping)).getD false),
            cropTransform := f.imageDownloadArguments.bind (fun a => a.cropTransform),
            requiresImageDimensions := ((f.imageDownloadArguments.bind
              (fun a => a.requiresImageDimensions)).getD false),
            filenameSuffix := f.imageDownloadArguments.bind (fun a => a.filenameSuffix) })]
    | none => m
  | .other _ => m

/-- `collectSvgNodesRecursive` (image-processing.ts lines 252–261): push ids
of `IMAGE-SVG` nodes in pre-order, recursing into present children. -/
def collectSvgNodesRecursive : List SNode → List String → List String
  | [], acc => acc
  | SNode.mk i ty _ ch :: rest, acc =>
    let acc1 := if ty = "IMAGE-SVG" then acc ++ [i] else acc
    let acc2 := match ch with
      | some cs => collectSvgNodesRecursive cs acc1
      | none => acc1
    collectSvgNodesRecursive rest acc2

/-- `collectImageReferences` (image-processing.ts lines 212–247): scan the
style registry entries for fill arrays, collecting dedup'd work items, then
collect `IMAGE-SVG` node ids recursively. -/
def collectImageReferences (design : SimplifiedDesign) : ImageCollectionResult :=
  let imageFills := design.styles.foldl
    (fun m entry =>
      match entry.2 with
      | StyleValue.fills l => l.foldl insertImageFill m
      | StyleValue.other _ => m) []
  let svgNodeIds := collectSvgNodesRecursive design.nodes []
  { imageFills := imageFills, svgNodeIds := svgNodeIds }

/-! ## URL Injector (`injectImageUrls`) -/

/-- Injection into one fill (image-processing.ts lines 284–298): when the fill
is an image fill with truthy `imageRef` whose unique key resolves to a truthy
URL, set `imageUrl` and delete `imageRef` and `imageDownloadArguments`;
otherwise leave the fill unchanged. -/
def injectFill (urlMap : List (String × String)) : SimplifiedFill → SimplifiedFill
  | .image f =>
    match f.imageRef with
    | some r =>
      if r = "" then .image f
      else
        match mapGet urlMap (fillUniqueKey r f.imageDownloadArguments) with
        | some url =>
          if url = "" then .image f
          else .image { imageRef := none, imageDownloadArguments := none, imageUrl := some url }
        | none => .image f
    | none => .image f
  | .other tag => .other tag

/-- Injection into one style value: fill arrays are rewritten element-wise,
other payloads untouched. -/
def injectStyleValue (urlMap : List (String × String)) : StyleValue → StyleValue
  | .fills l => .fills (l.map (injectFill urlMap))
  | .other tag => .other tag

/-- `injectSvgUrlsRecursive` (image-processing.ts lines 312–324): set
`imageUrl` on `IMAGE-SVG` nodes whose id resolves to a truthy URL, recursing
into present children. -/
def injectSvgUrlsRecursive (urlMap : List (String × String)) : List SNode → List SNode
  | [] => []
  | SNode.mk i ty u ch :: rest =>
    let u1 := if ty = "IMAGE-SVG" then
        match mapGet urlMap i with
        | some url => if url = "" then u else some url
        | none => u
      else u
    let ch1 := match ch with
      | some cs => some (injectSvgUrlsRecursive urlMap cs)
      | none => none
    SNode.mk i ty u1 ch1 :: injectSvgUrlsRecursive urlMap rest

/-- `injectImageUrls` (image-processing.ts lines 277–307), as a pure function
returning the mutated design. -/
def injectImageUrls (design : SimplifiedDesign) (urlMap : List (String × String)) :
    SimplifiedDesign :=
  { nodes := injectSvgUrlsRecursive urlMap design.nodes,
    styles := design.styles.map (fun e => (e.1, injectStyleValue urlMap e.2)) }

/-! ## Resilient fetch layer (`fetchWithRetry`, fetch-with-retry.ts)

The transport is modelled by an environment recording the primary `fetch`
outcome, the `curl` child-process outcome, and the JSON parse function for
the body strings involved. -/

/-- A parsed JSON response body: its optional numeric `status` field (used by
the embedded-status check) and the rest of the payload, opaque. -/
structure JsonBody where
  status : Option Nat
  payload : String
deriving DecidableEq, Repr

/-- Outcome of the primary `fetch` call: a response with `ok`/`status`/
`statusText` and a body to parse, or a transport-level throw
(TLS/proxy/timeout). -/
inductive PrimaryOutcome where
  | response (ok : Bool) (status : Nat) (statusText : String) (body : String)
  | transportFailure (msg : String)
deriving DecidableEq, Repr

/-- Outcome of `execFileAsync("curl", ...)`: captured stdout/stderr, or a
rejected promise (spawn failure or non-zero exit, e.g. `--fail-with-body`'s
exit code 22). -/
inductive CurlOutcome where
  | ran (stdout : String) (stderr : String)
  | execFailure (msg : String)
deriving DecidableEq, Repr

/-- The environment of one `fetchWithRetry` call. -/
structure FetchEnv where
  primary : PrimaryOutcome
  curl : CurlOutcome
  parse : String → Option JsonBody

/-- The errors `fetchWithRetry` can throw, tagged by origin: the primary
fetch throw for a non-ok response carries the HTTP status and status text
(`Fetch failed with status ...`); a JSON-parse throw of the primary body; a
transport-level throw. -/
inductive FetchErr where
  | httpStatus (status : Nat) (statusText : String)
  | jsonError (body : String)
  | transport (msg : String)
deriving DecidableEq, Repr

/-- `stderr.toLowerCase().includes("error") || stderr.toLowerCase().includes("fail")`. -/
def hasErrorKeyword (s : String) : Bool :=
  decide (1 < (s.toLower.splitOn "error").length) ||
  decide (1 < (s.toLower.splitOn "fail").length)

/-- The primary path of `fetchWithRetry` (fetch-with-retry.ts lines 24–32):
throw on transport failure; throw `Fetch failed with status ...` on a non-ok
response; otherwise parse the body (a parse throw is also a primary error). -/
def primaryResult (env : FetchEnv) : Except FetchErr JsonBody :=
  match env.primary with
  | .transportFailure m => .error (.transport m)
  | .response ok status statusText body =>
    if ok then
      match env.parse body with
      | some j => .ok j
      | none => .error (.jsonError body)
    else .error (.httpStatus status statusText)

/-- The `curl` fallback of `fetchWithRetry` (fetch-with-retry.ts lines
46–78): fail on a rejected exec; fail when stderr is non-empty and stdout is
empty or stderr bears an error keyword; fail on empty stdout; parse stdout
(fail on a parse throw); fail on a truthy embedded `status` field that is not
200.  The fallback's own error is discarded by the caller, hence `Unit`. -/
def curlFallback (env : FetchEnv) : Except Unit JsonBody :=
  match env.curl with
  | .execFailure _ => .error ()
  | .ran stdout stderr =>
    if stderr ≠ "" ∧ (stdout = "" ∨ hasErrorKeyword stderr) then .error ()
    else if stdout = "" then .error ()
    else
      match env.parse stdout with
      | none => .error ()
      | some j =>
        match j.status with
        | some s => if s ≠ 0 ∧ s ≠ 200 then .error () else .ok j
        | none => .ok j

/-- `fetchWithRetry` (fetch-with-retry.ts lines 19–87): primary fetch; on any
primary throw, attempt the `curl` fallback; when the fallback also fails,
re-throw the original primary error. -/
def fetchWithRetry (env : FetchEnv) : Except FetchErr JsonBody :=
  match primaryResult env with
  | .ok j => .ok j
  | .error fetchError =>
    match curlFallback env with
    | .ok j => .ok j
    | .error _ => .error fetchError

/-! ## Storage configuration (`getS3ConfigFromEnv`, s3-upload.ts) -/

/-- `S3Config`. -/
structure S3Config where
  region : String
  bucketName : String
  accessKeyId : String
  secretAccessKey : String
  transferAcceleration : Bool
deriving DecidableEq, Repr

/-- The `process.env` surface read by `getS3ConfigFromEnv`; each variable is
`none` when unset. -/
structure EnvVars where
  awsRegion : Option String
  awsBucketName : Option String
  awsAccessKeyId : Option String
  awsSecretAccessKey : Option String
  awsTransferAcceleration : Option String
deriving DecidableEq, Repr

/-- `getS3ConfigFromEnv` (s3-upload.ts): return `null` when any of the four
required variables is falsy (unset or empty); otherwise build the config,
with `transferAcceleration` iff the fifth variable equals `"true"`. -/
def getS3ConfigFromEnv (e : EnvVars) : Option S3Config :=
  if strTruthy e.awsRegion && strTruthy e.awsBucketName &&
     strTruthy e.awsAccessKeyId && strTruthy e.awsSecretAccessKey then
    some { region := (e.awsRegion.getD ""), bucketName := (e.awsBucketName.getD ""),
           accessKeyId := (e.awsAccessKeyId.getD ""),
           secretAccessKey := (e.awsSecretAccessKey.getD ""),
           transferAcceleration := e.awsTransferAcceleration == some "true" }
  else none

/-! ## Asset resolution pipeline (`processDesignImages`, figma.ts) -/

/-- One enqueued download job (figma.ts lines 337–344). -/
structure DownloadJob where
  uniqueKey : String
  fileName : String
  imageUrl : String
  needsCropping : Bool
  cropTransform : Option (List (List Rat))
  requiresImageDimensions : Bool
deriving DecidableEq, Repr

/-- JS `String.prototype.substring(0, 8)`. -/
def jsSubstring8 (s : String) : String := s.take 8

/-- The fill-resolution phase (figma.ts lines 347–369): for each work item
whose `imageRef` resolves to a truthy URL in the batched fill-URL response,
synthesize the filename (first 8 characters of the ref, optional suffix,
`.png`) and enqueue a job; unresolved refs are dropped. -/
def buildFillJobs (fillUrls : List (String × String))
    (imageFills : List (String × ImageFillInfo)) : List DownloadJob :=
  imageFills.filterMap (fun entry =>
    match mapGet fillUrls entry.2.imageRef with
    | some url =>
      if url = "" then none
      else
        let fileName := match entry.2.filenameSuffix with
          | some sfx =>
            if sfx = "" then jsSubstring8 entry.2.imageRef ++ ".png"
            else jsSubstring8 entry.2.imageRef ++ "-" ++ sfx ++ ".png"
          | none => jsSubstring8 entry.2.imageRef ++ ".png"
        some { uniqueKey := entry.1, fileName := fileName, imageUrl := url,
               needsCropping := entry.2.needsCropping,
               cropTransform := entry.2.cropTransform,
               requiresImageDimensions := entry.2.requiresImageDimensions }
    | none => none)

/-- The vector-resolution phase (figma.ts lines 372–390): for each svg node id
whose render URL is truthy, enqueue a job with no cropping and no dimension
requirement, filename `nodeId` with `:` replaced by `-` plus `.svg`. -/
def buildSvgJobs (svgUrls : List (String × String)) (svgNodeIds : List String) :
    List DownloadJob :=
  svgNodeIds.filterMap (fun nodeId =>
    match mapGet svgUrls nodeId with
    | some url =>
      if url = "" then none
      else some { uniqueKey := nodeId, fileName := nodeId.replace ":" "-" ++ ".svg",
                  imageUrl := url, needsCropping := false, cropTransform := none,
                  requiresImageDimensions := false }
    | none => none)

/-- The environment of one `processDesignImages` call: the storage
environment variables, the batched URL-resolution responses (already
truthy-filtered where the code filters them), and the settled outcome of each
download/process/upload job (`Promise.allSettled` entry): the stored S3 URL
on fulfillment, the rejection reason otherwise. -/
structure PipelineEnv where
  envVars : EnvVars
  fillUrls : List (String × String)
  svgUrls : List (String × String)
  runJob : DownloadJob → Except String String

/-- The jobs `processDesignImages` enqueues: fill jobs then svg jobs. -/
def buildDownloadJobs (env : PipelineEnv) (imageFills : List (String × ImageFillInfo))
    (svgNodeIds : List String) : List DownloadJob :=
  buildFillJobs env.fillUrls imageFills ++ buildSvgJobs env.svgUrls svgNodeIds

/-- The result-aggregation loop (figma.ts lines 399–425): run every job,
capture each settled outcome independently, and set `urlMap[uniqueKey]` for
each fulfilled job in job order, skipping rejected ones. -/
def settleJobs (run : DownloadJob → Except String String) :
    List DownloadJob → List (String × String) → List (String × String)
  | [], urlMap => urlMap
  | job :: rest, urlMap =>
    match run job with
    | .ok url => settleJobs run rest (mapSet urlMap job.uniqueKey url)
    | .error _ => settleJobs run rest urlMap

/-- `processDesignImages` (figma.ts lines 321–430): return the empty map when
the storage configuration is absent; build the download jobs from the two
batched URL resolutions; return the empty map when no job was enqueued;
otherwise settle every job and return the map built from fulfilled jobs. -/
def processDesignImages (env : PipelineEnv)
    (imageFills : List (String × ImageFillInfo)) (svgNodeIds : List String) :
    List (String × String) :=
  match getS3ConfigFromEnv env.envVars with
  | none => []
  | some _ =>
    let downloadJobs := buildDownloadJobs env imageFills svgNodeIds
    if downloadJobs.length = 0 then []
    else settleJobs env.runJob downloadJobs []

/-- A settled job's contribution to the url map, for stating the
partial-failure theorem. -/
def jobResultEntry (run : DownloadJob → Except String String) (j : DownloadJob) :
    Option (String × String) :=
  match run j with
  | .ok url => some (j.uniqueKey, url)
  | .error _ => none

/-! ## Spec-side characterization and concrete examples -/

/-- The svg-id collection as the spec words it (§4.3): the ids of `IMAGE-SVG`
nodes in pre-order — each parent before its children, siblings in input
order, no depth limit.  Stated independently of the accumulator-passing code,
to be compared with `collectSvgNodesRecursive`. -/
def preorderSvgIds : List SNode → List String
  | [] => []
  | SNode.mk i ty _ (some cs) :: rest =>
    (if ty = "IMAGE-SVG" then [i] else []) ++ (preorderSvgIds cs ++ preorderSvgIds rest)
  | SNode.mk i ty _ none :: rest =>
    (if ty = "IMAGE-SVG" then [i] else []) ++ preorderSvgIds rest

/-- The key a collected work item's own metadata induces: `imageRef`,
suffixed when the stored `filenameSuffix` is truthy. -/
def workItemKey (info : ImageFillInfo) : String :=
  match info.filenameSuffix with
  | some s => if s = "" then info.imageRef else info.imageRef ++ "-" ++ s
  | none => info.imageRef

/-- Two fills with the same `imageRef`, one without a suffix and one with
suffix `"v2"` (the spec's dedup-key example). -/
def exampleTwoCrops : SimplifiedDesign :=
  { nodes := [],
    styles := [("fill_ABC", StyleValue.fills
      [SimplifiedFill.image
        { imageRef := some "abc123", imageDownloadArguments := none, imageUrl := none },
       SimplifiedFill.image
        { imageRef := some "abc123",
          imageDownloadArguments := some
            { needsCropping := some true,
              cropTransform := some [[1, 0, 0], [0, 1, 0]],
              requiresImageDimensions := none,
              filenameSuffix := some "v2" },
          imageUrl := none }])] }

/-- Two fills with the same unique key `"abc123"` but different metadata: the
first requires cropping, the second does not. -/
def exampleRepeatedKey : SimplifiedDesign :=
  { nodes := [],
    styles := [("fill_A", StyleValue.fills
      [SimplifiedFill.image
        { imageRef := some "abc123",
          imageDownloadArguments := some
            { needsCropping := some true,
              cropTransform := some [[1, 0, 0], [0, 1, 0]],
              requiresImageDimensions := some true,
              filenameSuffix := none },
          imageUrl := none }]),
     ("fill_B", StyleValue.fills
      [SimplifiedFill.image
        { imageRef := some "abc123", imageDownloadArguments := none, imageUrl := none }])] }

/-- The work item the first fill of `exampleRepeatedKey` produces. -/
def exampleFirstInfo : ImageFillInfo :=
  { imageRef := "abc123", needsCropping := true,
    cropTransform := some [[1, 0, 0], [0, 1, 0]],
    requiresImageDimensions := true, filenameSuffix := none }

/-- A pipeline environment with storage configured, five resolvable image
fills `r1 … r5`, and a job runner that rejects exactly the job for `r3`
(its upload throws). -/
def examplePipelineEnv : PipelineEnv :=
  { envVars :=
      { awsRegion := some "us-east-1", awsBucketName := some "bkt",
        awsAccessKeyId := some "id", awsSecretAccessKey := some "secret",
        awsTransferAcceleration := none },
    fillUrls := [("r1", "https://f/1"), ("r2", "https://f/2"), ("r3", "https://f/3"),
                 ("r4", "https://f/4"), ("r5", "https://f/5")],
    svgUrls := [],
    runJob := fun j =>
      if j.uniqueKey == "r3" then Except.error "upload failed"
      else Except.ok ("https://bkt.s3.us-east-1.amazonaws.com/" ++ j.fileName) }

/-- A plain work item for `imageRef = r`. -/
def plainFillInfo (r : String) : ImageFillInfo :=
  { imageRef := r, needsCropping := false, cropTransform := none,
    requiresImageDimensions := false, filenameSuffix := none }

/-- The five enqueued fill work items of the partial-failure example. -/
def exampleFiveFills : List (String × ImageFillInfo) :=
  [("r1", plainFillInfo "r1"), ("r2", plainFillInfo "r2"), ("r3", plainFillInfo "r3"),
   ("r4", plainFillInfo "r4"), ("r5", plainFillInfo "r5")]

/-- A fetch environment whose primary response is an HTTP 404 and whose
`curl` fallback succeeds with a parseable body bearing no embedded status. -/
def exampleFetch404Env : FetchEnv :=
  { primary := PrimaryOutcome.response false 404 "Not Found" "",
    curl := CurlOutcome.ran "{}" "",
    parse := fun s => if s = "{}" then some { status := none, payload := "{}" } else none }

/-- A fetch environment where the primary fetch throws at transport level
and the `curl` exec also rejects. -/
def exampleFetchBothFailEnv : FetchEnv :=
  { primary := PrimaryOutcome.transportFailure "TLS handshake failed",
    curl := CurlOutcome.execFailure "exit 22",
    parse := fun _ => none }

/-- A pipeline environment with every storage variable absent. -/
def exampleNoS3Env : PipelineEnv :=
  { envVars :=
      { awsRegion := none, awsBucketName := none, awsAccessKeyId := none,
        awsSecretAccessKey := none, awsTransferAcceleration := none },
    fillUrls := [], svgUrls := [], runJob := fun _ => Except.error "unreachable" }

/-! # Theorems -/

/-! Helper facts about `jsRound`. -/

theorem jsRound_natCast (n : Nat) : jsRound (n : Rat) = n := by
  unfold jsRound
  rw [show ((n : Rat) = ((n : Int) : Rat)) by push_cast; ring]
  rw [Int.floor_int_add]
  norm_num

theorem jsRound_zero : jsRound 0 = 0 := by
  unfold jsRound
  norm_num

/-- C3: for positive dimensions `W × H` and any 2×3 crop transform, the
computed crop region is `left = max(0, round(tx*W))`, `top = max(0, round(ty*H))`,
`width = min(W-left, round(sx*W))`, `height = min(H-top, round(sy*H))`
(with `none` when a dimension is ≤ 0); the identity-like transform yields the
full region `{0, 0, W, H}`, and `scaleX = 0` yields no crop region. -/
theorem computeCropRegion_formula (W H : Nat) (hW : 0 < W) (hH : 0 < H)
    (sx kx tx ky sy ty : Rat) :
    (computeCropRegion W H [[sx, kx, tx], [ky, sy, ty]] =
      (let left := max 0 (jsRound (tx * W))
       let top := max 0 (jsRound (ty * H))
       let w := min ((W : Int) - left) (jsRound (sx * W))
       let h := min ((H : Int) - top) (jsRound (sy * H))
       if w ≤ 0 ∨ h ≤ 0 then none
       else some { left := left, top := top, width := w, height := h })) ∧
    computeCropRegion W H [[1, 0, 0], [0, 1, 0]] =
      some { left := 0, top := 0, width := (W : Int), height := (H : Int) } ∧
    (sx = 0 → computeCropRegion W H [[sx, kx, tx], [ky, sy, ty]] = none) := by
  have h0W : jsRound ((0 : Rat) * W) = 0 := by rw [zero_mul]; exact jsRound_zero
  have h0H : jsRound ((0 : Rat) * H) = 0 := by rw [zero_mul]; exact jsRound_zero
  have h1W : jsRound ((1 : Rat) * W) = W := by rw [one_mul]; exact jsRound_natCast W
  have h1H : jsRound ((1 : Rat) * H) = H := by rw [one_mul]; exact jsRound_natCast H
  refine ⟨rfl, ?_, ?_⟩
  · unfold computeCropRegion
    simp only [List.get?_cons_zero, List.get?_cons_succ, Option.some_bind, Option.getD_some,
      h0W, h0H, h1W, h1H, max_self, sub_zero, min_self]
    have hcond : ¬((W : Int) ≤ 0 ∨ (H : Int) ≤ 0) := by omega
    rw [if_neg hcond]
  · intro hsx
    subst hsx
    unfold computeCropRegion
    simp only [List.get?_cons_zero, List.get?_cons_succ, Option.some_bind, Option.getD_some, h0W]
    have hmin : min ((W : Int) - max 0 (jsRound (tx * W))) 0 ≤ 0 := min_le_right _ _
    rw [if_pos (Or.inl hmin)]

/-- Witness for `computeCropRegion_formula` at `W = 4`, `H = 3`. -/
theorem computeCropRegion_formula_witness :
    computeCropRegion 4 3 [[1, 0, 0], [0, 1, 0]] =
      some { left := 0, top := 0, width := 4, height := 3 } :=
  (computeCropRegion_formula 4 3 (by decide) (by decide) 1 0 0 0 1 0).2.1

/-- C6: degraded image processing never fails a job.  If the computed crop
region is degenerate (`none`), `applyCropTransformToBuffer` returns the
original buffer with no crop region; whenever no crop region is reported, the
returned bytes are the original buffer's; and when the metadata read fails,
`applyCropTransformToBuffer` falls back to the original buffer and
`getBufferDimensions` falls back to the placeholder `1000 × 1000`. -/
theorem crop_degraded_fallback (b : Buffer) (t : List (List Rat)) :
    ((applyCropTransformToBuffer b t).cropRegion = none →
      (applyCropTransformToBuffer b t).buffer = b) ∧
    (∀ w h, bufferMeta b = some (w, h) → computeCropRegion w h t = none →
      applyCropTransformToBuffer b t = { buffer := b, cropRegion := none }) ∧
    (bufferMeta b = none →
      applyCropTransformToBuffer b t = { buffer := b, cropRegion := none } ∧
      getBufferDimensions b = (1000, 1000)) := by
  have hcases : applyCropTransformToBuffer b t = { buffer := b, cropRegion := none } ∨
      ∃ r, applyCropTransformToBuffer b t =
        { buffer := Buffer.extracted b r, cropRegion := some r } := by
    unfold applyCropTransformToBuffer
    rcases bufferMeta b with _ | ⟨w, h⟩
    · exact Or.inl rfl
    · dsimp only
      by_cases hw : w = 0 ∨ h = 0
      · rw [if_pos hw]; exact Or.inl rfl
      · rw [if_neg hw]
        rcases computeCropRegion w h t with _ | r
        · exact Or.inl rfl
        · exact Or.inr ⟨r, rfl⟩
  refine ⟨?_, ?_, ?_⟩
  · intro hnone
    rcases hcases with heq | ⟨r, heq⟩
    · rw [heq]
    · rw [heq] at hnone
      exact absurd hnone (by simp)
  · intro w h hb hc
    unfold applyCropTransformToBuffer
    simp only [hb]
    by_cases hw : w = 0 ∨ h = 0
    · rw [if_pos hw]
    · rw [if_neg hw]
      simp only [hc]
  · intro hb
    constructor
    · unfold applyCropTransformToBuffer
      simp only [hb]
    · unfold getBufferDimensions
      simp only [hb]

/-- Witness for `crop_degraded_fallback`: a buffer whose metadata read fails. -/
theorem crop_degraded_fallback_witness :
    applyCropTransformToBuffer (Buffer.source none "bad") [] =
      { buffer := Buffer.source none "bad", cropRegion := none } ∧
    getBufferDimensions (Buffer.source none "bad") = (1000, 1000) :=
  (crop_degraded_fallback (Buffer.source none "bad") []).2.2 rfl


/-! Helper lemmas: injection with an empty url map is the identity. -/

theorem injectFill_nil (f : SimplifiedFill) : injectFill [] f = f := by
  rcases f with ⟨ref, args, url⟩ | tag
  · rcases ref with _ | r
    · rfl
    · by_cases hr : r = ""
      · simp [injectFill, hr]
      · simp [injectFill, hr, mapGet]
  · rfl

theorem injectFills_nil (l : List SimplifiedFill) : l.map (injectFill []) = l := by
  induction l with
  | nil => rfl
  | cons f rest ih => simp [injectFill_nil, ih]

theorem injectStyleValue_nil (v : StyleValue) : injectStyleValue [] v = v := by
  rcases v with l | tag
  · simp [injectStyleValue, injectFills_nil]
  · rfl

theorem injectStyleEntries_nil (s : List (String × StyleValue)) :
    s.map (fun e => (e.1, injectStyleValue [] e.2)) = s := by
  induction s with
  | nil => rfl
  | cons e rest ih => simp [injectStyleValue_nil, ih]

theorem injectSvgUrlsRecursive_nil (ns : List SNode) :
    injectSvgUrlsRecursive [] ns = ns := by
  induction ns using preorderSvgIds.induct with
  | case1 => simp [injectSvgUrlsRecursive]
  | case2 i ty u cs rest ihc ihr => simp [injectSvgUrlsRecursive, mapGet, ihc, ihr]
  | case3 i ty u rest ihr => simp [injectSvgUrlsRecursive, mapGet, ihr]

/-- C5: injecting an empty `UrlMap` leaves the design completely unchanged —
no `imageUrl` is added to any fill or `IMAGE-SVG` node, no `imageRef` or
`imageDownloadArguments` is removed, and the node tree and style registry are
identical before and after. -/
theorem injectImageUrls_empty_map (d : SimplifiedDesign) :
    injectImageUrls d [] = d := by
  rcases d with ⟨nodes, styles⟩
  unfold injectImageUrls
  simp [injectSvgUrlsRecursive_nil, injectStyleEntries_nil]

/-! Helper lemma: the accumulator-passing svg collection equals the pre-order
characterization. -/

theorem collectSvgNodesRecursive_eq (ns : List SNode) :
    ∀ acc : List String, collectSvgNodesRecursive ns acc = acc ++ preorderSvgIds ns := by
  induction ns using preorderSvgIds.induct with
  | case1 =>
    intro acc
    simp [collectSvgNodesRecursive, preorderSvgIds]
  | case2 i ty u cs rest ihc ihr =>
    intro acc
    simp only [collectSvgNodesRecursive, preorderSvgIds]
    rw [ihc, ihr]
    by_cases hty : ty = "IMAGE-SVG" <;> simp [hty]
  | case3 i ty u rest ihr =>
    intro acc
    simp only [collectSvgNodesRecursive, preorderSvgIds]
    rw [ihr]
    by_cases hty : ty = "IMAGE-SVG" <;> simp [hty]

/-- C10: `collectImageReferences` is a pure function of the design (the
embedding is read-only by construction: the source never writes to the design
during collection), and the returned `svgNodeIds` are exactly the ids of
`IMAGE-SVG` nodes in pre-order — each parent before its children, siblings in
input order, with no depth limit. -/
theorem collectImageReferences_svg_preorder (d : SimplifiedDesign) :
    (collectImageReferences d).svgNodeIds = preorderSvgIds d.nodes := by
  unfold collectImageReferences
  simp [collectSvgNodesRecursive_eq]

/-! Helper lemmas: every collected work item is keyed by its own metadata. -/

theorem insertImageFill_key (m : List (String × ImageFillInfo)) (fill : SimplifiedFill)
    (hm : ∀ k info, (k, info) ∈ m → k = workItemKey info) :
    ∀ k info, (k, info) ∈ insertImageFill m fill → k = workItemKey info := by
  intro k info hmem
  rcases fill with ⟨ref, args, url⟩ | tag
  · rcases ref with _ | r
    · exact hm k info hmem
    · simp only [insertImageFill] at hmem
      by_cases hr : r = ""
      · rw [if_pos hr] at hmem; exact hm k info hmem
      · rw [if_neg hr] at hmem
        by_cases hk : mapHas m (fillUniqueKey r args) = true
        · simp only [hk, if_true] at hmem; exact hm k info hmem
        · simp only [hk, if_false, Bool.false_eq_true] at hmem
          rcases List.mem_append.1 hmem with h | h
          · exact hm k info h
          · simp only [List.mem_singleton, Prod.mk.injEq] at h
            obtain ⟨hk1, hk2⟩ := h
            subst hk1
            subst hk2
            rfl
  · exact hm k info hmem

theorem foldlInsert_key (l : List SimplifiedFill) :
    ∀ m, (∀ k info, (k, info) ∈ m → k = workItemKey info) →
    ∀ k info, (k, info) ∈ l.foldl insertImageFill m → k = workItemKey info := by
  induction l with
  | nil => intro m hm; exact hm
  | cons f rest ih =>
    intro m hm
    exact ih _ (insertImageFill_key m f hm)

theorem stylesFold_key (s : List (String × StyleValue)) :
    ∀ m, (∀ k info, (k, info) ∈ m → k = workItemKey info) →
    ∀ k info, (k, info) ∈ s.foldl
      (fun m entry =>
        match entry.2 with
        | StyleValue.fills l => l.foldl insertImageFill m
        | StyleValue.other _ => m) m → k = workItemKey info := by
  induction s with
  | nil => intro m hm; exact hm
  | cons e rest ih =>
    intro m hm
    rcases e with ⟨sid, v⟩
    rcases v with l | tag
    · exact ih _ (foldlInsert_key l m hm)
    · exact ih _ hm

/-- C2: every work item of `collectImageReferences` is keyed by
`imageRef`, suffixed with `"-" + filenameSuffix` exactly when a suffix is
present; two fills sharing an `imageRef` but differing in suffix (none vs
`"v2"`) yield the two distinct keys `"abc123"` and `"abc123-v2"`; and
repeated occurrences of one unique key yield a single work item carrying the
first occurrence's crop/dimension metadata. -/
theorem collectImageReferences_unique_keys :
    (∀ (d : SimplifiedDesign) (k : String) (info : ImageFillInfo),
        (k, info) ∈ (collectImageReferences d).imageFills → k = workItemKey info) ∧
    (∀ (m : List (String × ImageFillInfo)) (f : SimplifiedImageFill) (r : String),
        f.imageRef = some r → r ≠ "" →
        mapHas m (fillUniqueKey r f.imageDownloadArguments) = true →
        insertImageFill m (SimplifiedFill.image f) = m) ∧
    (collectImageReferences exampleTwoCrops).imageFills.map Prod.fst
      = ["abc123", "abc123-v2"] ∧
    (collectImageReferences exampleRepeatedKey).imageFills
      = [("abc123", exampleFirstInfo)] := by
  refine ⟨?_, ?_, by decide, by decide⟩
  · intro d k info hmem
    unfold collectImageReferences at hmem
    exact stylesFold_key d.styles []
      (fun k info h => absurd h (List.not_mem_nil _)) k info hmem
  · intro m f r href hr hk
    simp only [insertImageFill, href]
    rw [if_neg hr, if_pos hk]

/-- Witness for `collectImageReferences_unique_keys`: the suffixed fill of
`exampleTwoCrops` is keyed `"abc123-v2"`. -/
theorem collectImageReferences_unique_keys_witness :
    "abc123-v2" = workItemKey
      { imageRef := "abc123", needsCropping := true,
        cropTransform := some [[1, 0, 0], [0, 1, 0]],
        requiresImageDimensions := false, filenameSuffix := some "v2" } :=
  collectImageReferences_unique_keys.1 exampleTwoCrops "abc123-v2" _ (by decide)

/-! Helper lemma: a `mapGet` hit returns a stored value. -/

theorem mapGet_mem {α : Type} (m : List (String × α)) (k : String) (v : α)
    (h : mapGet m k = some v) : ∃ p ∈ m, p.2 = v := by
  unfold mapGet at h
  rcases hfind : m.find? (fun p => p.1 == k) with _ | p0
  · rw [hfind] at h
    exact Option.noConfusion h
  · rw [hfind] at h
    exact ⟨p0, List.mem_of_find?_eq_some hfind, Option.some.inj h⟩

/-- C4: `injectImageUrls` rewrites exactly the resolved entries.  An image
fill whose unique key resolves in the url map gets `imageUrl` set to the
mapped URL with `imageRef` and `imageDownloadArguments` deleted; an image
fill whose unique key is absent keeps all of its fields unchanged; and the
whole design is rewritten fill-by-fill and node-by-node, so unresolved
references remain visible in the tree. -/
theorem injectImageUrls_rewrites_resolved (urlMap : List (String × String))
    (hv : ∀ p ∈ urlMap, p.2 ≠ "") :
    (∀ (r : String) (args : Option ImageDownloadArguments) (u : Option String)
        (url : String), r ≠ "" →
      (mapGet urlMap (fillUniqueKey r args) = some url →
        injectFill urlMap (SimplifiedFill.image
          { imageRef := some r, imageDownloadArguments := args, imageUrl := u })
          = SimplifiedFill.image
            { imageRef := none, imageDownloadArguments := none, imageUrl := some url }) ∧
      (mapGet urlMap (fillUniqueKey r args) = none →
        injectFill urlMap (SimplifiedFill.image
          { imageRef := some r, imageDownloadArguments := args, imageUrl := u })
          = SimplifiedFill.image
            { imageRef := some r, imageDownloadArguments := args, imageUrl := u })) ∧
    (∀ d : SimplifiedDesign,
      (injectImageUrls d urlMap).styles
        = d.styles.map (fun e => (e.1, injectStyleValue urlMap e.2)) ∧
      (injectImageUrls d urlMap).nodes = injectSvgUrlsRecursive urlMap d.nodes) := by
  refine ⟨?_, fun d => ⟨rfl, rfl⟩⟩
  intro r args u url hr
  constructor
  · intro hsome
    have hurl : url ≠ "" := by
      obtain ⟨p, hp, hpv⟩ := mapGet_mem urlMap _ url hsome
      rw [← hpv]
      exact hv p hp
    simp [injectFill, hr, hsome, hurl]
  · intro hnone
    simp [injectFill, hr, hnone]

/-- Witness for `injectImageUrls_rewrites_resolved`: a resolved fill is
rewritten to the mapped URL with its metadata deleted. -/
theorem injectImageUrls_rewrites_resolved_witness :
    injectFill [("abc123", "https://cdn/a.png")]
      (SimplifiedFill.image
        { imageRef := some "abc123", imageDownloadArguments := none, imageUrl := none })
      = SimplifiedFill.image
        { imageRef := none, imageDownloadArguments := none,
          imageUrl := some "https://cdn/a.png" } :=
  ((injectImageUrls_rewrites_resolved [("abc123", "https://cdn/a.png")] (by decide)).1
    "abc123" none none "https://cdn/a.png" (by decide)).1 (by decide)

/-- C7 counterexample: the primary response is an HTTP 404 (non-success), yet
the call does not fail with an error carrying that status — the command-line
fallback is consulted even for this HTTP-level failure, and its parsed body
is returned.  This refutes both that a non-success primary status makes the
call fail and that the fallback is invoked only on transport-level failures. -/
theorem fetchWithRetry_http_fallback_cex :
    fetchWithRetry exampleFetch404Env
      = Except.ok { status := none, payload := "{}" } ∧
    ∀ e : FetchErr, fetchWithRetry exampleFetch404Env ≠ Except.error e := by
  have h : fetchWithRetry exampleFetch404Env
      = Except.ok { status := none, payload := "{}" } := rfl
  refine ⟨h, fun e he => ?_⟩
  rw [h] at he
  exact Except.noConfusion he

/-- C7 (amended): a primary HTTP response with a non-success status triggers
the command-line fallback like any other primary failure; the call returns
the fallback's parsed body when the fallback succeeds, and fails with the
original error carrying that HTTP status and status text when the fallback
also fails. -/
theorem fetchWithRetry_http_error_behavior (env : FetchEnv)
    (status : Nat) (statusText body : String)
    (hp : env.primary = PrimaryOutcome.response false status statusText body) :
    fetchWithRetry env =
      (match curlFallback env with
       | .ok j => .ok j
       | .error _ => .error (FetchErr.httpStatus status statusText)) := by
  unfold fetchWithRetry primaryResult
  rw [hp]
  simp

/-- Witness for `fetchWithRetry_http_error_behavior` at the 404 environment. -/
theorem fetchWithRetry_http_error_behavior_witness :
    fetchWithRetry exampleFetch404Env =
      (match curlFallback exampleFetch404Env with
       | .ok j => .ok j
       | .error _ => .error (FetchErr.httpStatus 404 "Not Found")) :=
  fetchWithRetry_http_error_behavior exampleFetch404Env 404 "Not Found" "" rfl

/-- C8: whenever the primary fetch fails and the command-line fallback also
fails, the error surfaced to the caller is the original primary error; and
each of the listed fallback-failure modes — rejected exec, empty stdout,
error-bearing stderr, unparseable stdout, truthy embedded non-200 status —
indeed makes the fallback fail. -/
theorem fetchWithRetry_surfaces_primary_error (env : FetchEnv) (e : FetchErr)
    (hp : primaryResult env = Except.error e)
    (hc : curlFallback env = Except.error ()) :
    fetchWithRetry env = Except.error e ∧
    (∀ env' : FetchEnv, ∀ m, env'.curl = CurlOutcome.execFailure m →
      curlFallback env' = Except.error ()) ∧
    (∀ env' : FetchEnv, ∀ stderr, env'.curl = CurlOutcome.ran "" stderr →
      curlFallback env' = Except.error ()) ∧
    (∀ env' : FetchEnv, ∀ stdout stderr, env'.curl = CurlOutcome.ran stdout stderr →
      stderr ≠ "" → hasErrorKeyword stderr = true → curlFallback env' = Except.error ()) ∧
    (∀ env' : FetchEnv, ∀ stdout stderr, env'.curl = CurlOutcome.ran stdout stderr →
      stdout ≠ "" → env'.parse stdout = none → curlFallback env' = Except.error ()) ∧
    (∀ env' : FetchEnv, ∀ stdout stderr j s, env'.curl = CurlOutcome.ran stdout stderr →
      env'.parse stdout = some j → j.status = some s → s ≠ 0 → s ≠ 200 →
      curlFallback env' = Except.error ()) := by
  refine ⟨?_, ?_, ?_, ?_, ?_, ?_⟩
  · unfold fetchWithRetry
    rw [hp]
    dsimp only
    rw [hc]
  · intro env' m hcurl
    unfold curlFallback
    rw [hcurl]
  · intro env' stderr hcurl
    by_cases hs : stderr = "" <;> simp [curlFallback, hcurl, hs]
  · intro env' stdout stderr hcurl hne hkw
    unfold curlFallback
    rw [hcurl]
    dsimp only
    rw [if_pos ⟨hne, Or.inr hkw⟩]
  · intro env' stdout stderr hcurl hstdout hparse
    unfold curlFallback
    rw [hcurl]
    dsimp only
    by_cases h1 : stderr ≠ "" ∧ (stdout = "" ∨ hasErrorKeyword stderr = true)
    · rw [if_pos h1]
    · rw [if_neg h1, if_neg hstdout, hparse]
  · intro env' stdout stderr j s hcurl hparse hstat hs0 hs200
    unfold curlFallback
    rw [hcurl]
    dsimp only
    by_cases h1 : stderr ≠ "" ∧ (stdout = "" ∨ hasErrorKeyword stderr = true)
    · rw [if_pos h1]
    · rw [if_neg h1]
      by_cases h2 : stdout = ""
      · rw [if_pos h2]
      · rw [if_neg h2, hparse]
        dsimp only
        rw [hstat]
        dsimp only
        rw [if_pos ⟨hs0, hs200⟩]

/-- Witness for `fetchWithRetry_surfaces_primary_error`: primary transport
failure and rejected curl exec surface the transport error. -/
theorem fetchWithRetry_surfaces_primary_error_witness :
    fetchWithRetry exampleFetchBothFailEnv
      = Except.error (FetchErr.transport "TLS handshake failed") :=
  (fetchWithRetry_surfaces_primary_error exampleFetchBothFailEnv
    (FetchErr.transport "TLS handshake failed") rfl rfl).1

/-- C9: if any required storage configuration value is absent from the
environment, the pipeline is disabled rather than failing:
`getS3ConfigFromEnv` yields no configuration and `processDesignImages`
performs no resolution, download, or upload work, returning the empty url
map (the "images skipped" outcome) for every input. -/
theorem missing_s3_config_disables_pipeline (env : PipelineEnv)
    (h : env.envVars.awsRegion = none ∨ env.envVars.awsBucketName = none ∨
         env.envVars.awsAccessKeyId = none ∨ env.envVars.awsSecretAccessKey = none) :
    getS3ConfigFromEnv env.envVars = none ∧
    ∀ (imageFills : List (String × ImageFillInfo)) (svgNodeIds : List String),
      processDesignImages env imageFills svgNodeIds = [] := by
  have hcfg : getS3ConfigFromEnv env.envVars = none := by
    unfold getS3ConfigFromEnv
    rcases h with h | h | h | h <;> rw [h] <;> simp [strTruthy]
  refine ⟨hcfg, fun fills svg => ?_⟩
  unfold processDesignImages
  rw [hcfg]

/-- Witness for `missing_s3_config_disables_pipeline`: all variables absent. -/
theorem missing_s3_config_disables_pipeline_witness :
    getS3ConfigFromEnv exampleNoS3Env.envVars = none ∧
    processDesignImages exampleNoS3Env exampleFiveFills [] = [] := by
  have h := missing_s3_config_disables_pipeline exampleNoS3Env (Or.inl rfl)
  exact ⟨h.1, h.2 exampleFiveFills []⟩

/-! Helper lemmas for the settling loop. -/

theorem mapSet_new {α : Type} (m : List (String × α)) (k : String) (v : α)
    (h : mapHas m k = false) : mapSet m k v = m ++ [(k, v)] := by
  unfold mapSet
  simp [h]

theorem mapHas_append {α : Type} (m1 m2 : List (String × α)) (k : String) :
    mapHas (m1 ++ m2) k = (mapHas m1 k || mapHas m2 k) := by
  unfold mapHas mapGet
  rw [List.find?_append]
  rcases m1.find? (fun p => p.1 == k) with _ | p <;> simp

theorem mapHas_singleton {α : Type} (k k' : String) (v : α) :
    mapHas [(k, v)] k' = (k == k') := by
  unfold mapHas mapGet
  rcases hkk : k == k' with _ | _ <;> simp [List.find?, hkk]

theorem settleJobs_filterMap (run : DownloadJob → Except String String) :
    ∀ (jobs : List DownloadJob) (acc : List (String × String)),
    (jobs.map DownloadJob.uniqueKey).Nodup →
    (∀ j ∈ jobs, mapHas acc j.uniqueKey = false) →
    settleJobs run jobs acc = acc ++ jobs.filterMap (jobResultEntry run) := by
  intro jobs
  induction jobs with
  | nil =>
    intro acc _ _
    simp [settleJobs]
  | cons j rest ih =>
    intro acc hnodup hfresh
    rw [List.map_cons, List.nodup_cons] at hnodup
    obtain ⟨hnotin, hnodup'⟩ := hnodup
    simp only [settleJobs]
    rcases hrun : run j with m | url
    · dsimp only
      rw [ih acc hnodup' (fun j' hj' => hfresh j' (List.mem_cons_of_mem j hj'))]
      simp [List.filterMap_cons, jobResultEntry, hrun]
    · have hknew : mapHas acc j.uniqueKey = false := hfresh j (List.mem_cons_self j rest)
      dsimp only
      rw [mapSet_new acc j.uniqueKey url hknew]
      have hfresh' : ∀ j' ∈ rest, mapHas (acc ++ [(j.uniqueKey, url)]) j'.uniqueKey = false := by
        intro j' hj'
        rw [mapHas_append, mapHas_singleton]
        have hne : j.uniqueKey ≠ j'.uniqueKey := by
          intro heq
          exact hnotin (heq ▸ List.mem_map_of_mem DownloadJob.uniqueKey hj')
        simp [hfresh j' (List.mem_cons_of_mem j hj'), hne]
      rw [ih _ hnodup' hfresh']
      simp [List.filterMap_cons, jobResultEntry, hrun]

/-- C1: the failure of any enqueued download job neither aborts the call nor
removes other jobs' results.  With distinct job keys, `processDesignImages`
waits for every job to settle and returns exactly one `uniqueKey → URL` entry
per fulfilled job and none for rejected jobs; no job's exception escapes (the
settling loop is total by construction).  In particular, in the concrete
five-job environment where exactly the `r3` job rejects during upload, five
jobs are enqueued, exactly one fails, and the returned map has exactly four
entries. -/
theorem processDesignImages_partial_failure (env : PipelineEnv)
    (imageFills : List (String × ImageFillInfo)) (svgNodeIds : List String)
    (hcfg : getS3ConfigFromEnv env.envVars ≠ none)
    (hnodup : ((buildDownloadJobs env imageFills svgNodeIds).map
        DownloadJob.uniqueKey).Nodup) :
    processDesignImages env imageFills svgNodeIds
      = (buildDownloadJobs env imageFills svgNodeIds).filterMap
          (jobResultEntry env.runJob) ∧
    (buildDownloadJobs examplePipelineEnv exampleFiveFills []).length = 5 ∧
    ((buildDownloadJobs examplePipelineEnv exampleFiveFills []).filter
        (fun j => match examplePipelineEnv.runJob j with
          | .ok _ => false
          | .error _ => true)).length = 1 ∧
    (processDesignImages examplePipelineEnv exampleFiveFills []).length = 4 := by
  refine ⟨?_, by decide, by decide, by decide⟩
  unfold processDesignImages
  rcases hc : getS3ConfigFromEnv env.envVars with _ | cfg
  · exact absurd hc hcfg
  · dsimp only
    by_cases hlen : (buildDownloadJobs env imageFills svgNodeIds).length = 0
    · rw [if_pos hlen]
      rw [List.length_eq_zero] at hlen
      rw [hlen]
      simp
    · rw [if_neg hlen]
      rw [settleJobs_filterMap env.runJob _ [] hnodup (fun j _ => rfl)]
      simp

/-- Witness for `processDesignImages_partial_failure` at the five-job
environment. -/
theorem processDesignImages_partial_failure_witness :
    processDesignImages examplePipelineEnv exampleFiveFills []
      = (buildDownloadJobs examplePipelineEnv exampleFiveFills []).filterMap
          (jobResultEntry examplePipelineEnv.runJob) :=
  (processDesignImages_partial_failure examplePipelineEnv exampleFiveFills []
    (by decide) (by decide)).1
